import Mathlib

/-!
# PantiViewer — feed-cache, reconciliation, selection and transport verification

Shallow embedding of the client-side feed engine of PantiViewer:

* the refresh reconciliation of `useImageFetching.fetchImages`
  (src/frontend/src/hooks/useImageActions.js),
* the cursor-paginated fetch of `ImageContext.fetchImages`
  (src/frontend/src/context/ImageContext.jsx) and the
  `useImageFeed.fetchMoreImages` guard,
* the ImageGrid webSocketMessage / selection effects
  (src/frontend/src/components/ImageGrid.jsx),
* the heartbeat / reconnect logic of the `useWebSocket` hook variant
  carrying the pong watchdog (src/frontend/src/hooks/useGlobalHotkeys.js,
  second document in the file).

JavaScript arrays are Lean lists, JS `Set`s are lists deduplicated in
first-occurrence order (matching `Set` iteration order) or `Finset`s where
only membership matters, and JS `Map` is an insertion-ordered association
list where writing an existing key updates the value in place (matching
`Map` semantics: last value wins, first position wins).
-/

namespace PantiViewer

/-- An item of the feed.  `id` is the stable identifier, `content_id` and
`sort_value` form the rest of the compound sort key, `rev` stands for the
mutable payload of the object (any field that can differ between a cached
copy and a freshly fetched copy of the same `id`). -/
structure Image where
  id : Nat
  content_id : Nat
  sort_value : Int
  rev : Nat
deriving DecidableEq, Repr

/-- Insertion into a JS `Map` (`map.set(k, v)`): if the key is present the
value is overwritten in place (position kept), otherwise the pair is
appended. -/
def mapInsert (m : List (Nat × Image)) (k : Nat) (v : Image) : List (Nat × Image) :=
  if m.any (fun p => p.1 == k) then
    m.map (fun p => if p.1 == k then (k, v) else p)
  else
    m ++ [(k, v)]

/-- One step of building `new Map(l.map(item => [item.id, item]))`:
set the pair `[item.id, item]`. -/
def jsMapStep (m : List (Nat × Image)) (item : Image) : List (Nat × Image) :=
  mapInsert m item.id item

/-- Builds `new Map(l.map(item => [item.id, item]))`: fold the list into
an insertion-ordered map keyed by `id`. -/
def jsMapOfList (l : List Image) : List (Nat × Image) :=
  l.foldl jsMapStep []

/-- Computes `acc.contains k ? acc : acc ++ [k]` — one step of first-occurrence
deduplication, the semantics of inserting into a JS `Set`. -/
def insertIfNew (acc : List Nat) (k : Nat) : List Nat :=
  if acc.contains k then acc else acc ++ [k]

/-- First-occurrence deduplication of a list of ids: the iteration order of
`new Set(l)`, and the "dedup keeping the first occurrence" list the spec's
Reconciliation Algorithm describes. -/
def dedupFirst (l : List Nat) : List Nat :=
  l.foldl insertIfNew []

/-- The ws-refresh reconciliation of `useImageFetching.fetchImages`
(useImageActions.js lines 68-72):

    const newImageIds = new Set(data.map(img => img.id));
    const combined = [...data, ...images];
    const uniqueImages = Array.from(new Map(combined.map(item => [item.id, item])).values());
    setImages(uniqueImages.filter(img => newImageIds.has(img.id)));

`data` is the fresh authoritative list, `images` the current cache. -/
def reconcileImages (data images : List Image) : List Image :=
  let newImageIds := data.map (·.id)
  let combined := data ++ images
  let uniqueImages := (jsMapOfList combined).map (·.2)
  uniqueImages.filter (fun img => newImageIds.contains img.id)

/-- Scenario C fresh list: ids C=3, D=4, G=7. -/
def scFresh : List Image := [⟨3, 3, 3, 0⟩, ⟨4, 4, 4, 0⟩, ⟨7, 7, 7, 0⟩]

/-- Scenario C cached list: ids A=1, B=2, C=3, D=4, E=5, F=6. -/
def scCached : List Image :=
  [⟨1, 1, 1, 0⟩, ⟨2, 2, 2, 0⟩, ⟨3, 3, 3, 0⟩, ⟨4, 4, 4, 0⟩, ⟨5, 5, 5, 0⟩, ⟨6, 6, 6, 0⟩]

/-- Convenient concrete item: id n, content_id n, sort_value n, rev 0. -/
def mkImg (n : Nat) : Image := ⟨n, n, (n : Int), 0⟩

/-! ## FeedCache model A — `useImageFetching.fetchImages` (useImageActions.js) -/

/-- The state of `useImageFetching` (useImageActions.js lines 19-25): the
cached `images`, the loading flags, the recoverable error, the cursor
(`lastId`, `lastSortValue`) and `hasMore`. -/
structure FeedStateA where
  images : List Image
  imagesLoading : Bool
  imagesError : Option String
  lastId : Option Nat
  lastSortValue : Option Int
  hasMore : Bool
  isFetchingMore : Bool
deriving DecidableEq, Repr

/-- Models `useImageFetching.fetchImages` (useImageActions.js lines 36-101) as one
transition: a call with flags `isInitialLoad`/`isWsRefresh` whose network
request resolves to `result` (`.ok data` on success, `.error ()` when
`fetchImagesApi` throws).  `limit` is the value computed at line 45.  On
success: a ws-refresh reconciles (lines 68-72), a plain initial load
replaces (line 74), a page load appends the items not already present
(lines 77-80); the cursor advances when `data` is non-empty (lines 83-89)
and `hasMore := data.length === limit` (line 91).  On failure (lines
93-96): error set, `hasMore` false, images untouched.  The `finally` block
clears the loading flags in both cases. -/
def fetchImagesStepA (s : FeedStateA) (isInitialLoad isWsRefresh : Bool)
    (limit : Nat) (result : Except Unit (List Image)) : FeedStateA :=
  match result with
  | .error _ =>
      { s with imagesError := some "Failed to load images.", hasMore := false,
               imagesLoading := false, isFetchingMore := false }
  | .ok data =>
      let images' :=
        if isInitialLoad then
          if isWsRefresh then reconcileImages data s.images else data
        else
          s.images ++ data.filter (fun img => !(s.images.any (fun p => p.id == img.id)))
      let st :=
        match data.getLast? with
        | some lastImg =>
            { s with images := images', lastId := some lastImg.id,
                     lastSortValue := some lastImg.sort_value }
        | none => { s with images := images' }
      { st with hasMore := data.length == limit, imagesError := none,
                imagesLoading := false, isFetchingMore := false }

/-! ## FeedCache model B — `ImageContext.fetchImages` and `useImageFeed` -/

/-- The state of the `ImageProvider` (ImageContext.jsx lines 10-26): the
cached `images`, loading flags, error, the three cursor refs and
`hasMore`. -/
structure FeedStateB where
  images : List Image
  imagesLoading : Bool
  imagesError : Option String
  lastSortValue : Option Int
  lastContentId : Option Nat
  lastLocationId : Option Nat
  hasMore : Bool
  isFetchingMore : Bool
deriving DecidableEq, Repr

/-- The guard phase of `ImageContext.fetchImages` (ImageContext.jsx lines
28-40): returns the state after the synchronous prefix together with
whether a network request was issued.  `fetchImages` returns without a
request when unauthenticated or no filters exist (line 30), or when a
non-initial load is already in flight (line 32); otherwise it raises the
matching loading flag, clears the error and issues the request. -/
def fetchStartB (s : FeedStateB) (isInitialLoad isAuthenticated : Bool)
    (filtersLen : Nat) : FeedStateB × Bool :=
  if ¬isAuthenticated ∨ filtersLen = 0 then (s, false)
  else if ¬isInitialLoad ∧ s.isFetchingMore then (s, false)
  else if isInitialLoad then
    ({ s with imagesLoading := true, imagesError := none }, true)
  else
    ({ s with isFetchingMore := true, imagesError := none }, true)

/-- Models `useImageFeed.fetchMoreImages` (useImageActions.js lines 336-340):
call `fetchImages(false)` only when `hasMore && !isFetchingMore`. -/
def fetchMoreImagesB (s : FeedStateB) (isAuthenticated : Bool)
    (filtersLen : Nat) : FeedStateB × Bool :=
  if s.hasMore ∧ ¬s.isFetchingMore then fetchStartB s false isAuthenticated filtersLen
  else (s, false)

/-- The success path of `ImageContext.fetchImages` (ImageContext.jsx lines
66-98): an initial load replaces the cache, a page load appends only the
returned items whose id is not already present (lines 71-75); when `data`
is non-empty the cursor refs take the last returned item's id, content_id
and sort value (lines 78-88); `hasMore := data.length === limit` (line 90)
and the `finally` block clears the loading flags. -/
def resolveFetchB (s : FeedStateB) (isInitialLoad : Bool) (limit : Nat)
    (data : List Image) : FeedStateB :=
  let images' :=
    if isInitialLoad then data
    else s.images ++ data.filter (fun img => !((s.images.map (·.id)).contains img.id))
  let st :=
    match data.getLast? with
    | some lastImg =>
        { s with images := images',
                 lastLocationId := some lastImg.id,
                 lastContentId := some lastImg.content_id,
                 lastSortValue := some lastImg.sort_value }
    | none => { s with images := images' }
  { st with hasMore := data.length == limit, imagesError := none,
            imagesLoading := false, isFetchingMore := false }

/-- Scenario A starting state: cache `[1,2,3]`, `hasMore = true`, nothing
in flight. -/
def scA0 : FeedStateB :=
  { images := [mkImg 1, mkImg 2, mkImg 3], imagesLoading := false,
    imagesError := none, lastSortValue := some 3, lastContentId := some 3,
    lastLocationId := some 3, hasMore := true, isFetchingMore := false }

/-! ## EventReconciler — the ImageGrid webSocketMessage effect -/

/-- A push message, tagged by its `type` field (wire messages `image_deleted`,
`images_deleted`, `refresh_images`, and the non-cache-affecting rest). -/
inductive WsMsg where
  | imageDeleted (imageId : Nat)
  | imagesDeleted (imageIds : List Nat)
  | refreshImages (reason : Option String) (imageId : Option Nat)
  | toast
deriving DecidableEq, Repr

/-- Ids one message contributes to `deletedImageIds` (ImageGrid.jsx lines
354-358: `image_deleted` yields `[image_id]`, `images_deleted` yields
`image_ids || []`). -/
def wsMsgDeletedIds : WsMsg → List Nat
  | .imageDeleted i => [i]
  | .imagesDeleted is => is
  | _ => []

/-- Computes `new Set(batch.flatMap(...).filter(Boolean))` read off in iteration
order: first-occurrence dedup of the non-zero ids (`.filter(Boolean)` drops
a falsy id). -/
def wsDeletedIds (batch : List WsMsg) : List Nat :=
  dedupFirst ((batch.flatMap wsMsgDeletedIds).filter (fun i => i != 0))

/-- Computes `webSocketMessage.some(msg => msg.type === 'refresh_images')`. -/
def wsHasRefresh (batch : List WsMsg) : Bool :=
  batch.any (fun m => match m with | .refreshImages _ _ => true | _ => false)

/-- A cache operation the webSocketMessage effect performs. -/
inductive CacheAction where
  | removeIds (ids : List Nat)
  | invalidate
deriving DecidableEq, Repr

/-- The webSocketMessage effect (ImageGrid.jsx lines 348-391) as the
sequence of cache operations it performs: nothing for an empty batch
(line 349); otherwise the direct page filtering for the collected deletion
ids (`queryClient.setQueryData`, lines 362-373) and then, when the batch
has a `refresh_images`, the query invalidation (lines 376-380). -/
def processWsBatch (batch : List WsMsg) : List CacheAction :=
  if batch.length = 0 then []
  else
    (if wsDeletedIds batch ≠ [] then [CacheAction.removeIds (wsDeletedIds batch)] else [])
      ++ (if wsHasRefresh batch then [CacheAction.invalidate] else [])

/-- Running one cache operation on the pages of the infinite-query data:
a removal filters every page (ImageGrid.jsx lines 364-372); the
invalidation itself does not mutate the cached pages (it schedules a
refetch). -/
def applyCacheAction (pages : List (List Image)) : CacheAction → List (List Image)
  | .removeIds ids => pages.map (fun page => page.filter (fun image => !(ids.contains image.id)))
  | .invalidate => pages

/-! ## SelectionTracker — the ImageGrid selection effects -/

/-- The selection-related state of `ImageGrid`: the `initialMount` ref and
the `isSelectMode` / `selectedImages` props. -/
structure GridState where
  initialMount : Bool
  isSelectMode : Bool
  selectedImages : Finset Nat
deriving DecidableEq

/-- The `[images]` effect (ImageGrid.jsx lines 818-829): when the selection
is non-empty, keep only the ids of currently visible images. -/
def pruneSelectionEffect (images : List Image) (selected : Finset Nat) : Finset Nat :=
  if 0 < selected.card then
    selected.filter (fun id => id ∈ images.map (·.id))
  else selected

/-- The `[isSelectMode]` effect (ImageGrid.jsx lines 294-298 and 812-816):
when select mode is off, the selection set is reset to empty. -/
def clearSelectionEffect (s : GridState) : GridState :=
  if ¬s.isSelectMode then { s with selectedImages := ∅ } else s

/-- The `[selectedImages]` effect with its `initialMount` ref guard
(ImageGrid.jsx lines 300-311 and 831-842): the very first run only lowers
the guard; afterwards an empty selection while select mode is active
switches select mode off. -/
def autoExitEffect (s : GridState) : GridState :=
  if s.initialMount then { s with initialMount := false }
  else if s.isSelectMode ∧ s.selectedImages = ∅ then { s with isSelectMode := false }
  else s

/-! ## TransportSession — the watchdog variant of `useWebSocket`

The hook with the pong watchdog and the liveness listeners is the second
document inside src/frontend/src/hooks/useGlobalHotkeys.js (lines 158-295);
the first document of useWebSocket.js is an earlier revision without them. -/

inductive WsReadyState where
  | connecting
  | opened
  | closed
deriving DecidableEq, Repr

/-- Timer bookkeeping of the hook in absolute milliseconds: `pingNext` the
next `pingInterval` fire, `pongDeadline` the armed pong watchdog,
`reconnectAt` the pending reconnect timer. -/
structure WSState where
  ready : WsReadyState
  now : Nat
  pingNext : Option Nat
  pongDeadline : Option Nat
  reconnectAt : Option Nat
deriving DecidableEq, Repr

def pingIntervalMs : Nat := 20000
def pongTimeoutMs : Nat := 5000
def reconnectDelayMs : Nat := 3000

/-- A handler or timer firing of the hook. -/
inductive WSEvent where
  | onopen
  | pingFire
  | pongReceived
  | watchdogFire
  | oncloseEvt
  | reconnectFire
  | liveness
deriving DecidableEq, Repr

/-- One handler/timer firing at absolute time `t`, from useGlobalHotkeys.js
lines 158-295.  `onopen` (201-221): state OPEN, cancel a pending reconnect,
arm the 20000 ms ping interval.  `pingFire` (209-220): the interval
callback — when the socket is OPEN it sends a ping and (re)arms the 5000 ms
pong watchdog; the interval re-fires in 20000 ms either way.
`pongReceived` (227-230): clears the watchdog.  `watchdogFire` (215-218):
`ws.close()`, modelled together with the `onclose` it triggers.
`oncloseEvt` (239-249): state CLOSED, stop pinging, clear the watchdog,
schedule the reconnect in 3000 ms.  `reconnectFire` (248): the reconnect
timer calls `connect()`, which is a no-op unless the socket is closed.
`liveness` (260-278, the `online` / `visibilitychange`-visible / `pageshow`
listeners): when the socket is closed, cancel the pending reconnect timer
and call `connect()` immediately. -/
def wsStep (s : WSState) (e : WSEvent) (t : Nat) : WSState :=
  match e with
  | .onopen =>
      { s with ready := .opened, now := t,
               pingNext := some (t + pingIntervalMs), reconnectAt := none }
  | .pingFire =>
      if s.ready = .opened then
        { s with now := t, pingNext := some (t + pingIntervalMs),
                 pongDeadline := some (t + pongTimeoutMs) }
      else { s with now := t, pingNext := some (t + pingIntervalMs) }
  | .pongReceived => { s with now := t, pongDeadline := none }
  | .watchdogFire =>
      { s with ready := .closed, now := t, pingNext := none,
               pongDeadline := none, reconnectAt := some (t + reconnectDelayMs) }
  | .oncloseEvt =>
      { s with ready := .closed, now := t, pingNext := none,
               pongDeadline := none, reconnectAt := some (t + reconnectDelayMs) }
  | .reconnectFire =>
      if s.ready = .closed then
        { s with ready := .connecting, now := t, reconnectAt := none }
      else { s with now := t, reconnectAt := none }
  | .liveness =>
      if s.ready = .closed then
        { s with ready := .connecting, now := t, reconnectAt := none }
      else { s with now := t }

/-! ## Theorems -/

theorem fst_mapUpdate (k : Nat) (v : Image) (m : List (Nat × Image)) :
    (m.map (fun p => if p.1 == k then (k, v) else p)).map (·.1) = m.map (·.1) := by
  induction m with
  | nil => rfl
  | cons p ps ih =>
    simp only [List.map_cons, ih]
    congr 1
    split <;> simp_all [beq_iff_eq]

theorem any_fst_beq (m : List (Nat × Image)) (k : Nat) :
    (m.any fun p => p.1 == k) = (m.map (·.1)).contains k := by
  induction m with
  | nil => rfl
  | cons p ps ih =>
    by_cases hpk : p.1 = k
    · simp [hpk, ih, eq_comm]
    · have h1 : (p.1 == k) = false := beq_eq_false_iff_ne.mpr hpk
      have h2 : (k == p.1) = false := beq_eq_false_iff_ne.mpr (Ne.symm hpk)
      simp [ih, h1, h2]

theorem mapInsert_fst (m : List (Nat × Image)) (k : Nat) (v : Image) :
    (mapInsert m k v).map (·.1) = insertIfNew (m.map (·.1)) k := by
  rw [mapInsert, insertIfNew, any_fst_beq]
  by_cases h : (m.map (·.1)).contains k = true
  · rw [if_pos h, if_pos h, fst_mapUpdate]
  · rw [if_neg h, if_neg h, List.map_append]
    rfl

theorem jsFold_fst (l : List Image) :
    ∀ m : List (Nat × Image),
      ((l.foldl jsMapStep m).map (·.1))
        = l.foldl (fun acc item => insertIfNew acc item.id) (m.map (·.1)) := by
  induction l with
  | nil => intro m; rfl
  | cons a l ih =>
    intro m
    simp only [List.foldl_cons]
    rw [ih, jsMapStep, mapInsert_fst]

theorem jsMapOfList_fst (l : List Image) :
    (jsMapOfList l).map (·.1) = dedupFirst (l.map (·.id)) := by
  unfold jsMapOfList dedupFirst
  rw [List.foldl_map]
  simpa using jsFold_fst l []

theorem jsFold_snd_id (l : List Image) :
    ∀ m : List (Nat × Image), (∀ p ∈ m, p.2.id = p.1) →
      ∀ p ∈ l.foldl jsMapStep m, p.2.id = p.1 := by
  induction l with
  | nil => intro m hm; exact hm
  | cons a l ih =>
    intro m hm
    apply ih
    intro p hp
    rw [jsMapStep, mapInsert] at hp
    split at hp
    · rcases List.mem_map.mp hp with ⟨q, hq, rfl⟩
      split
      · rfl
      · exact hm q hq
    · rcases List.mem_append.mp hp with h | h
      · exact hm p h
      · simp only [List.mem_singleton] at h
        subst h
        rfl

theorem map_id_filter_contains (ids : List Nat) (l : List Image) :
    (l.filter (fun img => ids.contains img.id)).map (·.id)
      = (l.map (·.id)).filter (fun k => ids.contains k) := by
  induction l with
  | nil => rfl
  | cons a l ih =>
    simp only [List.map_cons, List.filter_cons]
    by_cases h : ids.contains a.id = true
    · rw [if_pos h, if_pos h, List.map_cons, ih]
    · rw [if_neg h, if_neg h, ih]

/-- C1: the spec claims the refresh reconciliation deduplicates `fresh ++
cached` keeping the first occurrence so that for an id present in both, the
item object from `fresh` appears in the result.  The code builds
`new Map(combined.map(item => [item.id, item]))`, whose value for a
duplicated key is the **last** write — the stale cached object.  At
fresh = `[{id 1, rev 1}]`, cached = `[{id 1, rev 0}]` the result is the
cached object and the fresh object is absent. -/
theorem reconcile_keeps_stale_copy :
    reconcileImages [⟨1, 1, 1, 1⟩] [⟨1, 1, 1, 0⟩] = [⟨1, 1, 1, 0⟩]
    ∧ (⟨1, 1, 1, 1⟩ : Image) ∉ reconcileImages [⟨1, 1, 1, 1⟩] [⟨1, 1, 1, 0⟩] := by
  constructor
  · rfl
  · decide

/-- C2: the refresh reconciliation contains no id absent from `fresh`, and
its ids are exactly the first-occurrence deduplication of the ids of
`fresh ++ cached` filtered to the ids of `fresh` — i.e. the relative order
in which ids first appear scanning `fresh` then `cached` is preserved. -/
theorem reconcile_no_foreign_and_order (data images : List Image) :
    (reconcileImages data images).map (·.id)
        = (dedupFirst ((data ++ images).map (·.id))).filter
            (fun k => (data.map (·.id)).contains k)
    ∧ ∀ img ∈ reconcileImages data images, img.id ∈ data.map (·.id) := by
  constructor
  · show (((jsMapOfList (data ++ images)).map (·.2)).filter
        (fun img => (data.map (·.id)).contains img.id)).map (·.id) = _
    rw [map_id_filter_contains]
    have hval : ((jsMapOfList (data ++ images)).map (·.2)).map (·.id)
        = (jsMapOfList (data ++ images)).map (·.1) := by
      rw [List.map_map]
      exact List.map_congr_left
        (fun p hp => jsFold_snd_id (data ++ images) [] (by intro q hq; cases hq) p hp)
    rw [hval, jsMapOfList_fst]
  · intro img h
    replace h : img ∈ ((jsMapOfList (data ++ images)).map (·.2)).filter
        (fun i => (data.map (·.id)).contains i.id) := h
    have h2 := (List.mem_filter.mp h).2
    simpa using h2

/-- Witness for C2: Scenario C — fresh ids `[3,4,7]` (C,D,G), cached ids
`[1,2,3,4,5,6]` (A..F) yield exactly `[3,4,7]`, and the id 3 of an item of
the result is an id of `fresh`. -/
theorem reconcile_no_foreign_and_order_witness :
    ((reconcileImages scFresh scCached).map (·.id)
        = (dedupFirst ((scFresh ++ scCached).map (·.id))).filter
            (fun k => (scFresh.map (·.id)).contains k))
    ∧ (reconcileImages scFresh scCached).map (·.id) = [3, 4, 7]
    ∧ (⟨3, 3, 3, 0⟩ : Image).id ∈ scFresh.map (·.id) :=
  ⟨(reconcile_no_foreign_and_order scFresh scCached).1,
   ((reconcile_no_foreign_and_order scFresh scCached).1).trans (by decide),
   (reconcile_no_foreign_and_order scFresh scCached).2 ⟨3, 3, 3, 0⟩ (by decide)⟩

theorem map_id_filter (p : Nat → Bool) (l : List Image) :
    (l.filter (fun img => p img.id)).map (·.id) = (l.map (·.id)).filter p := by
  induction l with
  | nil => rfl
  | cons a l ih =>
    simp only [List.map_cons, List.filter_cons]
    by_cases h : p a.id = true
    · rw [if_pos h, if_pos h, List.map_cons, ih]
    · rw [if_neg h, if_neg h, ih]

theorem resolveFetchB_images (s : FeedStateB) (limit : Nat) (data : List Image) :
    (resolveFetchB s false limit data).images
      = s.images ++ data.filter (fun img => !((s.images.map (·.id)).contains img.id)) := by
  unfold resolveFetchB
  cases data.getLast? <;> rfl

/-- C7: a failing fetch — page fetch or the ws-refresh reconciliation
fetch alike — sets the recoverable feed error, forces `hasMore` to false,
and leaves the previously loaded items completely unchanged: the `catch`
block never calls `setImages`, so no partial reconciliation is ever
committed. -/
theorem fetch_failure_preserves_items (s : FeedStateA)
    (isInitialLoad isWsRefresh : Bool) (limit : Nat) :
    (fetchImagesStepA s isInitialLoad isWsRefresh limit (.error ())).images = s.images
    ∧ (fetchImagesStepA s isInitialLoad isWsRefresh limit (.error ())).imagesError
        = some "Failed to load images."
    ∧ (fetchImagesStepA s isInitialLoad isWsRefresh limit (.error ())).hasMore = false :=
  ⟨rfl, rfl, rfl⟩

/-- C5: while a fetch is pending (`isFetchingMore`), a second call to fetch
the next page is a no-op at both guards — `useImageFeed.fetchMoreImages`
and `ImageContext.fetchImages` leave the state unchanged and issue no
network request — and when the one outstanding fetch eventually resolves,
the append keeps the cached ids duplicate-free. -/
theorem second_fetch_is_noop (s : FeedStateB) (auth : Bool) (fl : Nat)
    (limit : Nat) (data : List Image)
    (hPending : s.isFetchingMore = true)
    (hNodupCache : (s.images.map (·.id)).Nodup)
    (hNodupData : (data.map (·.id)).Nodup) :
    fetchMoreImagesB s auth fl = (s, false)
    ∧ fetchStartB s false auth fl = (s, false)
    ∧ ((resolveFetchB s false limit data).images.map (·.id)).Nodup := by
  refine ⟨?_, ?_, ?_⟩
  · rw [fetchMoreImagesB, if_neg]
    simp [hPending]
  · rw [fetchStartB]
    by_cases hg : ¬auth = true ∨ fl = 0
    · rw [if_pos hg]
    · rw [if_neg hg, if_pos ⟨by simp, hPending⟩]
  · rw [resolveFetchB_images, List.map_append,
      map_id_filter (fun k => !((s.images.map (·.id)).contains k))]
    refine List.Nodup.append hNodupCache (hNodupData.filter _) ?_
    intro a ha hb
    have h2 := (List.mem_filter.mp hb).2
    rw [Bool.not_eq_eq_eq_not, Bool.not_true] at h2
    have h3 : a ∉ s.images.map (·.id) := by simpa using h2
    exact h3 ha

/-- Witness for C5: with Scenario A's cache marked in-flight, a second
fetchMoreImages is a no-op. -/
theorem second_fetch_is_noop_witness :
    ({ scA0 with isFetchingMore := true } : FeedStateB).isFetchingMore = true
    ∧ fetchMoreImagesB { scA0 with isFetchingMore := true } true 1
        = ({ scA0 with isFetchingMore := true }, false) :=
  ⟨rfl, (second_fetch_is_noop { scA0 with isFetchingMore := true } true 1 2
    [mkImg 9] rfl (by decide) (by decide)).1⟩

/-- C6: a successful non-initial `fetchImages` appends exactly the
returned items whose id is not already cached, advances the cursor refs to
the last returned item's compound sort key, and sets `hasMore` true
exactly when the returned count equals the limit. -/
theorem fetch_next_page_ok (s : FeedStateB) (limit : Nat) (data : List Image)
    (lastImg : Image) (hLast : data.getLast? = some lastImg) :
    (resolveFetchB s false limit data).images
        = s.images ++ data.filter (fun img => !((s.images.map (·.id)).contains img.id))
    ∧ (∀ img, img ∈ (resolveFetchB s false limit data).images ↔
        img ∈ s.images ∨ (img ∈ data ∧ img.id ∉ s.images.map (·.id)))
    ∧ (resolveFetchB s false limit data).lastSortValue = some lastImg.sort_value
    ∧ (resolveFetchB s false limit data).lastContentId = some lastImg.content_id
    ∧ (resolveFetchB s false limit data).lastLocationId = some lastImg.id
    ∧ ((resolveFetchB s false limit data).hasMore = true ↔ data.length = limit) := by
  refine ⟨resolveFetchB_images s limit data, ?_, ?_, ?_, ?_, ?_⟩
  · intro img
    rw [resolveFetchB_images]
    simp [List.mem_append, List.mem_filter]
  · simp [resolveFetchB, hLast]
  · simp [resolveFetchB, hLast]
  · simp [resolveFetchB, hLast]
  · simp [resolveFetchB, hLast]

/-- Witness for C6: Scenario A — cache `[1,2,3]`, limit 2; a page `[4,5]`
yields cache `[1,2,3,4,5]` with `hasMore = true`; a following page `[6]`
yields `hasMore = false`. -/
theorem fetch_next_page_ok_witness :
    (resolveFetchB scA0 false 2 [mkImg 4, mkImg 5]).images
        = [mkImg 1, mkImg 2, mkImg 3, mkImg 4, mkImg 5]
    ∧ (resolveFetchB scA0 false 2 [mkImg 4, mkImg 5]).hasMore = true
    ∧ (resolveFetchB (resolveFetchB scA0 false 2 [mkImg 4, mkImg 5])
        false 2 [mkImg 6]).hasMore = false := by
  have h1 := fetch_next_page_ok scA0 2 [mkImg 4, mkImg 5] (mkImg 5) rfl
  have h2 := fetch_next_page_ok (resolveFetchB scA0 false 2 [mkImg 4, mkImg 5])
    2 [mkImg 6] (mkImg 6) rfl
  refine ⟨h1.1.trans (by decide), h1.2.2.2.2.2.mpr (by rfl), ?_⟩
  cases hx : (resolveFetchB (resolveFetchB scA0 false 2 [mkImg 4, mkImg 5])
      false 2 [mkImg 6]).hasMore
  · rfl
  · exact absurd (h2.2.2.2.2.2.mp hx) (by decide)

/-- C3: the selection-pruning effect yields exactly the intersection of
the previous selection with the ids currently in the cache; in particular,
after the effect the selection is a subset of the cache ids. -/
theorem selection_pruned_to_cache (images : List Image) (selected : Finset Nat) :
    pruneSelectionEffect images selected = selected ∩ (images.map (·.id)).toFinset
    ∧ pruneSelectionEffect images selected ⊆ (images.map (·.id)).toFinset := by
  have h : pruneSelectionEffect images selected
      = selected ∩ (images.map (·.id)).toFinset := by
    by_cases hc : 0 < selected.card
    · rw [pruneSelectionEffect, if_pos hc]
      ext a
      simp [Finset.mem_filter, Finset.mem_inter, List.mem_toFinset]
    · rw [pruneSelectionEffect, if_neg hc]
      have he : selected = ∅ := Finset.card_eq_zero.mp (Nat.eq_zero_of_not_pos hc)
      rw [he, Finset.empty_inter]
  exact ⟨h, by rw [h]; exact Finset.inter_subset_right⟩

/-- C9: the auto-exit effect never changes the mode on its initial-mount
run (it only lowers the guard), and once past the mount it does switch
select mode off when a previously non-empty active selection has been
pruned to empty. -/
theorem auto_exit_guarded (s : GridState) (images : List Image) :
    (s.initialMount = true →
      (autoExitEffect s).isSelectMode = s.isSelectMode
      ∧ (autoExitEffect s).selectedImages = s.selectedImages)
    ∧ (s.initialMount = false → s.isSelectMode = true → s.selectedImages ≠ ∅ →
        pruneSelectionEffect images s.selectedImages = ∅ →
        (autoExitEffect { s with
          selectedImages := pruneSelectionEffect images s.selectedImages }).isSelectMode
          = false) := by
  constructor
  · intro h
    rw [autoExitEffect, if_pos h]
    exact ⟨rfl, rfl⟩
  · intro h1 h2 _h3 h4
    rw [autoExitEffect, if_neg (by simp [h1]), if_pos ⟨h2, h4⟩]

/-- Witness for C9: a freshly mounted grid with an empty selection keeps
its mode, and a past-mount active grid whose selection `{5}` is pruned to
empty by an empty cache exits select mode. -/
theorem auto_exit_guarded_witness :
    ((⟨true, false, ∅⟩ : GridState).initialMount = true
      ∧ (autoExitEffect ⟨true, false, ∅⟩).isSelectMode
          = (⟨true, false, ∅⟩ : GridState).isSelectMode)
    ∧ ((⟨false, true, {5}⟩ : GridState).initialMount = false
      ∧ pruneSelectionEffect [] ({5} : Finset Nat) = ∅
      ∧ (autoExitEffect { (⟨false, true, {5}⟩ : GridState) with
            selectedImages := pruneSelectionEffect [] ({5} : Finset Nat) }).isSelectMode
          = false) :=
  ⟨⟨rfl, ((auto_exit_guarded ⟨true, false, ∅⟩ []).1 rfl).1⟩,
   ⟨rfl, by decide,
    (auto_exit_guarded ⟨false, true, {5}⟩ []).2 rfl rfl (by decide) (by decide)⟩⟩

/-- C10: after the `[isSelectMode]` effect runs, select mode being off
implies the selection set is empty — switching the mode off immediately
clears the selection. -/
theorem inactive_implies_empty_selection (s : GridState)
    (h : (clearSelectionEffect s).isSelectMode = false) :
    (clearSelectionEffect s).selectedImages = ∅ := by
  by_cases hm : s.isSelectMode = true
  · rw [clearSelectionEffect, if_neg (by simp [hm])] at h ⊢
    exact absurd hm (by simp [h])
  · rw [clearSelectionEffect, if_pos hm]

/-- Witness for C10: a grid out of select mode with a stale selection
`{3}` ends with an empty selection after the effect. -/
theorem inactive_implies_empty_selection_witness :
    (clearSelectionEffect ⟨false, false, {3}⟩).isSelectMode = false
    ∧ (clearSelectionEffect ⟨false, false, {3}⟩).selectedImages = ∅ :=
  ⟨rfl, inactive_implies_empty_selection ⟨false, false, {3}⟩ rfl⟩

/-- C4 counterexample: a batch holding both a deletion and a refresh DOES
apply the removal to the cache separately — the action trace is the
removal followed by the invalidation, and the removal visibly filters the
cached pages before any refetch resolves. -/
theorem batch_with_refresh_still_removes :
    processWsBatch [WsMsg.imageDeleted 2, WsMsg.refreshImages none none]
        = [CacheAction.removeIds [2], CacheAction.invalidate]
    ∧ CacheAction.removeIds [2]
        ∈ processWsBatch [WsMsg.imageDeleted 2, WsMsg.refreshImages none none]
    ∧ applyCacheAction [[mkImg 1, mkImg 2]] (CacheAction.removeIds [2]) = [[mkImg 1]] :=
  ⟨rfl, by decide, by decide⟩

/-- C4 amended: in a non-empty batch containing a `refresh_images`, the
query invalidation is always applied last; everything before it is the
direct removal of the batch's collected deletion ids (which therefore IS
separately applied whenever such ids exist). -/
theorem refresh_applied_last (batch : List WsMsg)
    (hne : batch.length ≠ 0) (href : wsHasRefresh batch = true) :
    (processWsBatch batch).getLast? = some CacheAction.invalidate
    ∧ ∀ a ∈ (processWsBatch batch).dropLast,
        a = CacheAction.removeIds (wsDeletedIds batch) := by
  rw [processWsBatch, if_neg hne, if_pos href]
  by_cases hd : wsDeletedIds batch ≠ []
  · rw [if_pos hd]
    refine ⟨rfl, ?_⟩
    intro a ha
    simpa using ha
  · rw [if_neg hd]
    refine ⟨rfl, ?_⟩
    intro a ha
    simp at ha

/-- Witness for C4 (amended): a batch with a bulk deletion and a refresh
ends with the invalidation. -/
theorem refresh_applied_last_witness :
    ([WsMsg.imagesDeleted [1, 2], WsMsg.refreshImages none none] : List WsMsg).length ≠ 0
    ∧ wsHasRefresh [WsMsg.imagesDeleted [1, 2], WsMsg.refreshImages none none] = true
    ∧ (processWsBatch [WsMsg.imagesDeleted [1, 2], WsMsg.refreshImages none none]).getLast?
        = some CacheAction.invalidate :=
  ⟨by decide, rfl,
   (refresh_applied_last [WsMsg.imagesDeleted [1, 2], WsMsg.refreshImages none none]
     (by decide) rfl).1⟩

/-- C8: once OPEN, opening arms the ping interval 20000 ms ahead and each
interval fire while OPEN re-arms it 20000 ms ahead and starts a 5000 ms
pong watchdog; the watchdog expiring at its deadline (no pong arrived)
forces the socket closed with a reconnect scheduled exactly 3000 ms later;
and a liveness signal while closed reconnects immediately, cancelling the
pending reconnect timer. -/
theorem heartbeat_reconnect_timing (s : WSState) (t d : Nat) :
    ((wsStep s .onopen t).pingNext = some (t + 20000))
    ∧ (s.ready = .opened →
        (wsStep s .pingFire t).pingNext = some (t + 20000)
        ∧ (wsStep s .pingFire t).pongDeadline = some (t + 5000))
    ∧ (s.pongDeadline = some d →
        (wsStep s .watchdogFire d).ready = .closed
        ∧ (wsStep s .watchdogFire d).reconnectAt = some (d + 3000))
    ∧ (s.ready = .closed →
        (wsStep s .liveness t).ready = .connecting
        ∧ (wsStep s .liveness t).reconnectAt = none) := by
  refine ⟨rfl, fun h => ?_, fun _ => ⟨rfl, rfl⟩, fun h => ?_⟩
  · simp [wsStep, h, pingIntervalMs, pongTimeoutMs]
  · simp [wsStep, h]

/-- Witness for C8: concrete runs — a ping fired at t = 20000 on an open
socket arms the watchdog for 25000; a liveness signal on a closed socket
with a reconnect pending at 3000 clears it and reconnects at once. -/
theorem heartbeat_reconnect_timing_witness :
    (⟨.opened, 0, some 20000, none, none⟩ : WSState).ready = .opened
    ∧ (wsStep ⟨.opened, 0, some 20000, none, none⟩ .pingFire 20000).pongDeadline
        = some 25000
    ∧ (⟨.closed, 0, none, none, some 3000⟩ : WSState).ready = .closed
    ∧ (wsStep ⟨.closed, 0, none, none, some 3000⟩ .liveness 100).reconnectAt = none :=
  ⟨rfl,
   ((heartbeat_reconnect_timing ⟨.opened, 0, some 20000, none, none⟩ 20000 0).2.1 rfl).2,
   rfl,
   ((heartbeat_reconnect_timing ⟨.closed, 0, none, none, some 3000⟩ 100 0).2.2.2 rfl).2⟩

end PantiViewer
